import Mathlib

/-!
Shallow embedding of the OVSDBCluster reconciliation loop from
`controllers/ovsdbcluster_controller.go` (package `controllers`).

The reconciler observes a sorted list of `OVSDBServer` resources (members)
and a sorted list of server `Pod`s (runtime instances), projects a cluster
status from them, and then emits create/update/delete actions for members
and instances.  We embed the loop body as pure functions from the observed
state to the projected status and the list of actions.
-/

namespace OvnOperator

/-- The observed state of one OVSDBServer resource (a cluster member).
`available` and `failed` stand for the resource's Available and Failed
status conditions as read by `util.IsAvailable` / `util.IsFailed`. -/
structure OVSDBServer where
  name : String
  available : Bool
  failed : Bool
  clusterID : Option String
  raftAddress : Option String
deriving DecidableEq

/-- The observed state of one server pod: its name and whether it is Ready
(`util.IsPodReady`). -/
structure Pod where
  name : String
  ready : Bool
deriving DecidableEq

/-- Reason codes used with the cluster Failed condition:
`OVSDBClusterBootstrap` and `OVSDBClusterInconsistent`. -/
inductive FailReason where
  | bootstrap
  | inconsistent
deriving DecidableEq

/-- The persisted status of the OVSDBCluster resource.  `available` stands
for the Available condition and `failed` for the Failed condition together
with its reason code and message. -/
structure ClusterStatus where
  clusterID : Option String
  clusterSize : Nat
  clusterQuorum : Nat
  availableServers : Nat
  available : Bool
  failed : Option (FailReason × String)
deriving DecidableEq

/-- The declared spec of the OVSDBCluster resource. -/
structure ClusterSpec where
  replicas : Nat
  dbType : String
  serverStorageSize : String
  serverStorageClass : Option String
deriving DecidableEq

/-- The OVSDBCluster resource: identity, declared spec, persisted status. -/
structure OVSDBCluster where
  name : String
  spec : ClusterSpec
  status : ClusterStatus
deriving DecidableEq

/-- Modelled from the spec: the status-condition helper `util.SetFailed`
(status-condition bookkeeping is out of scope of the source under
inspection); it records the single Failed condition with a reason and a
message, overwriting any previously recorded one (last writer wins). -/
def setFailed (st : ClusterStatus) (r : FailReason) (msg : String) : ClusterStatus :=
  { st with failed := some (r, msg) }

/-- Modelled from the spec: the helper `util.UnsetFailed`; it removes the
Failed condition. -/
def unsetFailed (st : ClusterStatus) : ClusterStatus :=
  { st with failed := none }

/-- Modelled from the spec: the helper `util.SetAvailable`. -/
def setAvailable (st : ClusterStatus) : ClusterStatus :=
  { st with available := true }

/-- Modelled from the spec: the helper `util.UnsetAvailable`. -/
def unsetAvailable (st : ClusterStatus) : ClusterStatus :=
  { st with available := false }

/-- Modelled from the spec: `util.IsAvailable` reads the member's Available
condition. -/
def isAvailable (s : OVSDBServer) : Bool := s.available

/-- Modelled from the spec: `util.IsFailed` reads the member's Failed
condition. -/
def isFailed (s : OVSDBServer) : Bool := s.failed

/-- Modelled from the spec: `util.IsPodReady` reads the pod's Ready
condition. -/
def isPodReady (p : Pod) : Bool := p.ready

/-- The closure `findServer` in `Reconcile`: linear scan of the observed
member list for the first member with the given name. -/
def findServer (servers : List OVSDBServer) (name : String) : Option OVSDBServer :=
  servers.find? (fun s => s.name = name)

/-- The closure `findPod` in `Reconcile`: linear scan of the observed pod
list for the first pod with the given name. -/
def findPod (pods : List Pod) (name : String) : Option Pod :=
  pods.find? (fun p => p.name = name)

/-- The count of members whose Available condition holds (`clusterSize`). -/
def countAvailable (servers : List OVSDBServer) : Nat :=
  servers.countP isAvailable

/-- The count of ready pods (`nAvailable`). -/
def countReadyPods (pods : List Pod) : Nat :=
  pods.countP isPodReady

/-- The quorum computation `int(math.Ceil(float64(clusterSize) / 2))`.
The floating computation is exact at these magnitudes and equals the
natural number `(clusterSize + 1) / 2`. -/
def quorumOf (clusterSize : Nat) : Nat :=
  (clusterSize + 1) / 2

/-- The message built at line 191 of the source; the misspelling
"intialize" is the source's. -/
def bootstrapMsg (names : List String) : String :=
  "The following servers have failed to intialize: " ++ String.intercalate ", " names

/-- One iteration of the loop at lines 184-195: a fresh local list
`failed` is filled with this member's name if it reports failed, and if
non-empty the cluster Failed condition is set from it.  (The local list is
declared inside the loop in the source, so it never accumulates across
iterations.) -/
def bootstrapStep (st : ClusterStatus) (server : OVSDBServer) : ClusterStatus :=
  let failedNames : List String := if isFailed server then [server.name] else []
  if failedNames.length > 0 then
    setFailed st FailReason.bootstrap (bootstrapMsg failedNames)
  else st

/-- The loop at lines 184-195 over all members. -/
def bootstrapFailedFold : List OVSDBServer → ClusterStatus → ClusterStatus
  | [], st => st
  | server :: rest, st => bootstrapFailedFold rest (bootstrapStep st server)

/-- The message built at lines 211-214 of the source. -/
def inconsistentMsg (serverName sid cid : String) : String :=
  "Server " ++ serverName ++ " has inconsistent ClusterID " ++ sid ++
    ". Expected ClusterID " ++ cid

/-- One iteration of the loop at lines 201-221: adopt this member's
ClusterID while the cluster has none; once the cluster has one, flag a
member reporting a different non-null ClusterID as an inconsistency
failure. -/
def clusterIDStep (st : ClusterStatus) (server : OVSDBServer) : ClusterStatus :=
  match st.clusterID with
  | none => { st with clusterID := server.clusterID }
  | some cid =>
    match server.clusterID with
    | some sid =>
      if sid ≠ cid then
        setFailed st FailReason.inconsistent (inconsistentMsg server.name sid cid)
      else st
    | none => st

/-- The loop at lines 201-221 over all members. -/
def clusterIDFold : List OVSDBServer → ClusterStatus → ClusterStatus
  | [], st => st
  | server :: rest, st => clusterIDFold rest (clusterIDStep st server)

/-- Lines 107-178 of `Reconcile`: unset Failed, compute clusterSize and
clusterQuorum from the members and nAvailable from the pods, set or unset
Available, and store the three counts in the status. -/
def baseStatus (cluster : OVSDBCluster) (servers : List OVSDBServer)
    (pods : List Pod) : ClusterStatus :=
  let st := unsetFailed cluster.status
  let clusterSize := countAvailable servers
  let clusterQuorum := quorumOf clusterSize
  let nAvailable := countReadyPods pods
  let st := if nAvailable ≥ clusterQuorum ∧ nAvailable > 0 then setAvailable st
            else unsetAvailable st
  { st with
      availableServers := nAvailable
      clusterSize := clusterSize
      clusterQuorum := clusterQuorum }

/-- The status projection part of `Reconcile` (lines 107-221): the base
status, then the bootstrap-failure loop, then the ClusterID loop. -/
def statusProjection (cluster : OVSDBCluster) (servers : List OVSDBServer)
    (pods : List Pod) : ClusterStatus :=
  clusterIDFold servers (bootstrapFailedFold servers (baseStatus cluster servers pods))

/-! ### Decimal member names

`nextServerName` prints candidate names with `fmt.Sprintf("%s-%d", ...)`.
We embed `%d` as the usual base-10 printing of a natural number. -/

/-- Little-endian base-10 digits, by structural recursion on a fuel bound
so the kernel can evaluate it (`digitsLE` instantiates the fuel). -/
def digitsLECore : Nat → Nat → List Nat
  | _, 0 => []
  | 0, _ + 1 => []
  | fuel + 1, n + 1 => ((n + 1) % 10) :: digitsLECore fuel ((n + 1) / 10)

/-- Little-endian base-10 digits of a natural number (empty for 0). -/
def digitsLE (n : Nat) : List Nat :=
  digitsLECore n n

/-- Decode little-endian base-10 digits back into a natural number. -/
def ofDigitsLE (ds : List Nat) : Nat :=
  ds.foldr (fun d acc => d + 10 * acc) 0

/-- Big-endian decimal digit list, with the single digit 0 for zero. -/
def decDigits (n : Nat) : List Nat :=
  if n = 0 then [0] else (digitsLE n).reverse

/-- The decimal string for a natural number, as `%d` prints it. -/
def decRepr (n : Nat) : String :=
  String.mk ((decDigits n).map Nat.digitChar)

/-- The candidate name `fmt.Sprintf("%s-%d", cluster.Name, i)`. -/
def serverName (clusterName : String) (i : Nat) : String :=
  clusterName ++ "-" ++ decRepr i

/-- The probing loop of `nextServerName`, with explicit fuel: try
`serverName clusterName i`, `i+1`, ... and return the first name for which
`findServer` comes up empty.  The source loop is unbounded; fuel
`servers.length + 1` always suffices (`searchFree_isSome` below), so the
embedding agrees with the source. -/
def searchFree (clusterName : String) (servers : List OVSDBServer) :
    Nat → Nat → Option String
  | _, 0 => none
  | i, fuel + 1 =>
    if findServer servers (serverName clusterName i) = none then
      some (serverName clusterName i)
    else
      searchFree clusterName servers (i + 1) fuel

/-- The function `nextServerName`: the first name in the sequence
`<cluster>-0`, `<cluster>-1`, ... not present in the observed member list.
The default branch is unreachable (`searchFree_isSome`). -/
def nextServerName (cluster : OVSDBCluster) (servers : List OVSDBServer) : String :=
  (searchFree cluster.name servers 0 (servers.length + 1)).getD
    (serverName cluster.name (servers.length + 1))

/-! ### Actions emitted by the reconcile cycle -/

/-- The spec fields written to a member by `serverApply` (lines 407-429). -/
structure ServerSpecFields where
  dbType : String
  clusterID : Option String
  clusterName : String
  initPeers : List String
  storageSize : String
  storageClass : Option String
deriving DecidableEq

/-- Modelled from the spec: the write actions the cycle issues against the
external store (the helpers `controllerutil.CreateOrUpdate`,
`CreateOrDelete` and `client.Delete` are out of scope of the source under
inspection; we record what they are asked to do).
`createOrUpdateServer` is the member upsert of the scale-up loop;
`createPod` is a `CreateOrDelete` for a member with no existing pod (it
creates the pod, so the operation result is never None);
`replacePod` is a `CreateOrDelete` for a member whose pod already exists,
with `changed` recording whether the operation actually changed anything
(operation result different from None); `deletePod` is the scale-to-zero
deletion. -/
inductive Action where
  | createOrUpdateServer (name : String) (fields : ServerSpecFields)
  | createPod (name : String)
  | replacePod (name : String) (changed : Bool)
  | deletePod (name : String)
deriving DecidableEq

/-- The `initPeers` computation of `serverApply`: the raft addresses of all
members of the observed list other than the one being applied that report
one. -/
def initPeersOf (sname : String) (allServers : List OVSDBServer) : List String :=
  allServers.filterMap
    (fun peer => if peer.name = sname then none else peer.raftAddress)

/-- The member spec written by `serverApply` for a member named `sname`,
given the cluster (with its current status) and the observed member list. -/
def serverApplySpec (cluster : OVSDBCluster) (sname : String)
    (allServers : List OVSDBServer) : ServerSpecFields :=
  { dbType := cluster.spec.dbType
    clusterID := cluster.status.clusterID
    clusterName := cluster.name
    initPeers := initPeersOf sname allServers
    storageSize := cluster.spec.serverStorageSize
    storageClass := cluster.spec.serverStorageClass }

/-- The target member count (lines 232-240): `spec.replicas`, raised to 1
when zero, and forced to exactly 1 while the cluster status has no
ClusterID yet. -/
def targetServersOf (cluster : OVSDBCluster) : Nat :=
  let t := if cluster.spec.replicas = 0 then 1 else cluster.spec.replicas
  if cluster.status.clusterID = none then 1 else t

/-- The scale-up loop (lines 242-265): Go `for i := len(servers); i <
targetServers; i++`, each iteration synthesizing a name with
`nextServerName` against the closure over the observed member list (which
the loop never extends) and upserting a member with `serverApply`. -/
def scaleUpActions (cluster : OVSDBCluster) (servers : List OVSDBServer)
    (target : Nat) : List Action :=
  (List.range' servers.length (target - servers.length)).map
    (fun _ =>
      let name := nextServerName cluster servers
      Action.createOrUpdateServer name (serverApplySpec cluster name servers))

/-- One iteration of the per-member instance loop (lines 283-325).  The
working state is the local `nAvailable` count (an int in the source, so it
is an `Int` here) together with the actions issued so far.  `opChanged`
tells, for an existing pod, whether the `CreateOrDelete` operation result
was different from None. -/
def podStep (pods : List Pod) (clusterSize clusterQuorum : Nat)
    (opChanged : String → Bool) (state : Int × List Action)
    (server : OVSDBServer) : Int × List Action :=
  let (nAvail, acts) := state
  if ¬ isAvailable server then
    (nAvail, acts)
  else
    match findPod pods server.name with
    | some _ =>
      if clusterSize ≥ 3 ∧ nAvail ≤ (clusterQuorum : Int) then
        (nAvail, acts)
      else
        let changed := opChanged server.name
        ((if changed then nAvail - 1 else nAvail),
          acts ++ [Action.replacePod server.name changed])
    | none =>
      (nAvail - 1, acts ++ [Action.createPod server.name])

/-- The per-member instance loop, iterating `podStep` over the members in
their observed (sorted) order. -/
def podLoop (pods : List Pod) (clusterSize clusterQuorum : Nat)
    (opChanged : String → Bool) :
    List OVSDBServer → Int × List Action → Int × List Action
  | [], state => state
  | server :: rest, state =>
    podLoop pods clusterSize clusterQuorum opChanged rest
      (podStep pods clusterSize clusterQuorum opChanged state server)

/-- The instance-reconciliation phase (lines 271-326): delete every pod
when `spec.replicas` is zero, otherwise run the per-member loop threading
the working `nAvailable` count. -/
def podPhase (cluster : OVSDBCluster) (servers : List OVSDBServer)
    (pods : List Pod) (clusterSize clusterQuorum : Nat) (nAvailable : Int)
    (opChanged : String → Bool) : Int × List Action :=
  if cluster.spec.replicas = 0 then
    (nAvailable, pods.map (fun p => Action.deletePod p.name))
  else
    podLoop pods clusterSize clusterQuorum opChanged servers (nAvailable, [])

/-- The body of `Reconcile` after both lists were fetched: project the
status; if it differs from the snapshot taken at cycle start, stop with no
actions (lines 223-226); otherwise run the scale-up loop and the instance
phase. -/
def reconcileBody (cluster : OVSDBCluster) (servers : List OVSDBServer)
    (pods : List Pod) (opChanged : String → Bool) :
    ClusterStatus × List Action :=
  let st := statusProjection cluster servers pods
  if st = cluster.status then
    let cluster' := { cluster with status := st }
    let clusterSize := countAvailable servers
    let clusterQuorum := quorumOf clusterSize
    let nAvailable := countReadyPods pods
    let serverActs := scaleUpActions cluster' servers (targetServersOf cluster')
    let podActs :=
      (podPhase cluster' servers pods clusterSize clusterQuorum
        (nAvailable : Int) opChanged).2
    (st, serverActs ++ podActs)
  else
    (st, [])

/-- The outcome of one cycle: the status as of return (persisted by the
deferred update when it differs from the snapshot), the actions issued,
and the error surfaced to the caller, if any. -/
structure CycleResult where
  status : ClusterStatus
  actions : List Action
  err : Option String

/-- The whole cycle from the point the cluster was fetched: unset Failed,
fetch the member list and then the pod list (each list error aborts the
cycle and is surfaced), then run the body. -/
def reconcile (cluster : OVSDBCluster)
    (serversResult : Except String (List OVSDBServer))
    (podsResult : Except String (List Pod))
    (opChanged : String → Bool) : CycleResult :=
  let st0 := unsetFailed cluster.status
  match serversResult with
  | Except.error e => { status := st0, actions := [], err := some e }
  | Except.ok servers =>
    match podsResult with
    | Except.error e => { status := st0, actions := [], err := some e }
    | Except.ok pods =>
      let r := reconcileBody cluster servers pods opChanged
      { status := r.1, actions := r.2, err := none }

/-! ### Classifiers over emitted actions -/

/-- Whether an action replaces an existing pod and actually changed it
(the operation result was not None). -/
def isActualReplace (a : Action) : Bool :=
  match a with
  | Action.replacePod _ true => true
  | _ => false

/-- The number of members whose existing instance was actually replaced. -/
def countReplaced (acts : List Action) : Nat :=
  acts.countP isActualReplace

/-- Whether an action is a member upsert from the scale-up loop. -/
def isServerCreate (a : Action) : Bool :=
  match a with
  | Action.createOrUpdateServer _ _ => true
  | _ => false

/-- The names of the members upserted by the scale-up loop, in order. -/
def serverCreateNames (acts : List Action) : List String :=
  acts.filterMap
    (fun a => match a with
      | Action.createOrUpdateServer n _ => some n
      | _ => none)

/-! ### Concrete fixtures used to instantiate theorems with hypotheses -/

/-- A fresh, never-bootstrapped cluster status. -/
def freshStatus : ClusterStatus :=
  { clusterID := none, clusterSize := 0, clusterQuorum := 0,
    availableServers := 0, available := false, failed := none }

/-- A member fixture: available, not failed. -/
def mkServer (n : String) (cid : Option String) (addr : Option String) : OVSDBServer :=
  { name := n, available := true, failed := false, clusterID := cid, raftAddress := addr }

/-- A pod fixture. -/
def mkPod (n : String) (ready : Bool) : Pod :=
  { name := n, ready := ready }

/-- A cluster fixture. -/
def mkCluster (n : String) (replicas : Nat) (st : ClusterStatus) : OVSDBCluster :=
  { name := n,
    spec := { replicas := replicas, dbType := "nb", serverStorageSize := "1G",
              serverStorageClass := none },
    status := st }

/-- A member named "a" that reports failed. -/
def failedA : OVSDBServer :=
  { name := "a", available := true, failed := true, clusterID := none,
    raftAddress := none }

/-- A member named "b" that reports failed. -/
def failedB : OVSDBServer :=
  { name := "b", available := true, failed := true, clusterID := none,
    raftAddress := none }

/-- A member reporting the ClusterID "B", conflicting with a cluster whose
ClusterID is "A". -/
def conflictM : OVSDBServer :=
  { name := "m", available := true, failed := false, clusterID := some "B",
    raftAddress := none }

/-- A status for a cluster already bootstrapped with ClusterID "A", one
member, quorum one, no ready instance. -/
def statusA : ClusterStatus :=
  { clusterID := some "A", clusterSize := 1, clusterQuorum := 1,
    availableServers := 0, available := false, failed := none }

/-- A cluster fixture for the peer-capture scenario: bootstrapped with
ClusterID "A" and asking for two replicas. -/
def clusterC8 : OVSDBCluster := mkCluster "c" 2 statusA

/-- The single existing member of the peer-capture scenario: it already
reports a raft address. -/
def serversC8 : List OVSDBServer := [mkServer "c-0" (some "A") (some "tcp:s0")]

/-- A cluster fixture for the naming scenario. -/
def clusterC7 : OVSDBCluster := mkCluster "c" 2 freshStatus

/-- Existing members named c-0 and c-2, leaving the gap c-1. -/
def serversC7 : List OVSDBServer :=
  [mkServer "c-0" none none, mkServer "c-2" none none]

/-- Five available members, for the quorum-safe replacement scenario. -/
def serversFive : List OVSDBServer :=
  [mkServer "c-0" none none, mkServer "c-1" none none, mkServer "c-2" none none,
    mkServer "c-3" none none, mkServer "c-4" none none]

/-- Four ready pods, for the quorum-safe replacement scenario. -/
def podsFour : List Pod :=
  [mkPod "c-0" true, mkPod "c-1" true, mkPod "c-2" true, mkPod "c-3" true]

/-! ### Lemmas about decimal names and the probing loop -/

lemma ofDigitsLE_cons (d : Nat) (ds : List Nat) :
    ofDigitsLE (d :: ds) = d + 10 * ofDigitsLE ds := rfl

lemma ofDigitsLE_digitsLECore :
    ∀ fuel n, n ≤ fuel → ofDigitsLE (digitsLECore fuel n) = n
  | 0, 0, _ => rfl
  | 0, n + 1, h => absurd h (by omega)
  | _ + 1, 0, _ => rfl
  | fuel + 1, n + 1, h => by
    have hlt : (n + 1) / 10 < n + 1 := Nat.div_lt_self (Nat.succ_pos n) (by omega)
    have hdiv : (n + 1) / 10 ≤ fuel := by omega
    have ih := ofDigitsLE_digitsLECore fuel ((n + 1) / 10) hdiv
    calc ofDigitsLE (digitsLECore (fuel + 1) (n + 1))
        = (n + 1) % 10 + 10 * ofDigitsLE (digitsLECore fuel ((n + 1) / 10)) := rfl
      _ = (n + 1) % 10 + 10 * ((n + 1) / 10) := by rw [ih]
      _ = n + 1 := Nat.mod_add_div (n + 1) 10

lemma ofDigitsLE_digitsLE (n : Nat) : ofDigitsLE (digitsLE n) = n :=
  ofDigitsLE_digitsLECore n n le_rfl

lemma digitsLE_inj {a b : Nat} (h : digitsLE a = digitsLE b) : a = b := by
  have ha := ofDigitsLE_digitsLE a
  have hb := ofDigitsLE_digitsLE b
  rw [h] at ha
  omega

lemma digitsLECore_lt_ten :
    ∀ fuel n d, d ∈ digitsLECore fuel n → d < 10
  | 0, 0, d, h => by simp [digitsLECore] at h
  | 0, _ + 1, d, h => by simp [digitsLECore] at h
  | _ + 1, 0, d, h => by simp [digitsLECore] at h
  | fuel + 1, n + 1, d, h => by
    rcases List.mem_cons.mp h with h | h
    · subst h; exact Nat.mod_lt _ (by omega)
    · exact digitsLECore_lt_ten fuel ((n + 1) / 10) d h

lemma decDigits_lt_ten (n : Nat) : ∀ d ∈ decDigits n, d < 10 := by
  intro d hd
  unfold decDigits at hd
  split at hd
  · simp at hd; omega
  · exact digitsLECore_lt_ten n n d (List.mem_reverse.mp hd)

lemma decDigits_inj {a b : Nat} (h : decDigits a = decDigits b) : a = b := by
  unfold decDigits at h
  split at h <;> split at h
  · omega
  · next ha hb =>
    have : digitsLE b = [0] := by
      rw [← List.reverse_reverse (digitsLE b), ← h]
      rfl
    have hb0 := ofDigitsLE_digitsLE b
    rw [this] at hb0
    simp [ofDigitsLE] at hb0
    omega
  · next ha hb =>
    have : digitsLE a = [0] := by
      rw [← List.reverse_reverse (digitsLE a), h]
      rfl
    have ha0 := ofDigitsLE_digitsLE a
    rw [this] at ha0
    simp [ofDigitsLE] at ha0
    omega
  · exact digitsLE_inj (List.reverse_injective h)

lemma digitChar_inj_lt :
    ∀ a < 10, ∀ b < 10, Nat.digitChar a = Nat.digitChar b → a = b := by decide

lemma map_digitChar_inj :
    ∀ l1 l2 : List Nat, (∀ d ∈ l1, d < 10) → (∀ d ∈ l2, d < 10) →
      l1.map Nat.digitChar = l2.map Nat.digitChar → l1 = l2
  | [], [], _, _, _ => rfl
  | [], _ :: _, _, _, h => by simp at h
  | _ :: _, [], _, _, h => by simp at h
  | d1 :: t1, d2 :: t2, h1, h2, h => by
    simp only [List.map_cons, List.cons.injEq] at h
    have hd := digitChar_inj_lt d1 (h1 d1 (by simp)) d2 (h2 d2 (by simp)) h.1
    have ht := map_digitChar_inj t1 t2 (fun d hd => h1 d (by simp [hd]))
      (fun d hd => h2 d (by simp [hd])) h.2
    rw [hd, ht]

lemma decRepr_inj : Function.Injective decRepr := by
  intro a b h
  unfold decRepr at h
  have hd : (decDigits a).map Nat.digitChar = (decDigits b).map Nat.digitChar := by
    have := congrArg String.data h
    exact this
  exact decDigits_inj
    (map_digitChar_inj _ _ (decDigits_lt_ten a) (decDigits_lt_ten b) hd)

lemma serverName_inj (c : String) : Function.Injective (serverName c) := by
  intro i j h
  unfold serverName at h
  have hd := congrArg String.data h
  rw [String.data_append, String.data_append, String.data_append,
    String.data_append] at hd
  have h1 := List.append_cancel_left hd
  exact decRepr_inj (String.ext h1)

lemma nodup_subset_length {α : Type} [DecidableEq α] (l1 l2 : List α)
    (h1 : l1.Nodup) (hs : l1 ⊆ l2) : l1.length ≤ l2.length := by
  calc l1.length = l1.toFinset.card := (List.toFinset_card_of_nodup h1).symm
    _ ≤ l2.toFinset.card :=
      Finset.card_le_card
        (fun x hx => List.mem_toFinset.mpr (hs (List.mem_toFinset.mp hx)))
    _ ≤ l2.length := l2.toFinset_card_le

lemma findServer_ne_none_mem {servers : List OVSDBServer} {n : String}
    (h : findServer servers n ≠ none) : n ∈ servers.map OVSDBServer.name := by
  cases hfind : findServer servers n with
  | none => exact absurd hfind h
  | some s =>
    have hmem := List.mem_of_find?_eq_some hfind
    have hname := List.find?_some hfind
    simp only [decide_eq_true_eq] at hname
    exact List.mem_map.mpr ⟨s, hmem, hname⟩

lemma all_taken_le_length (c : String) (servers : List OVSDBServer) (j : Nat)
    (h : ∀ k < j, findServer servers (serverName c k) ≠ none) :
    j ≤ servers.length := by
  have hsub : (List.range j).map (serverName c) ⊆ servers.map OVSDBServer.name := by
    intro x hx
    simp only [List.mem_map, List.mem_range] at hx
    obtain ⟨k, hk, rfl⟩ := hx
    exact findServer_ne_none_mem (h k hk)
  have hnodup := (List.nodup_range j).map (serverName_inj c)
  have := nodup_subset_length _ _ hnodup hsub
  simpa using this

lemma searchFree_eq (c : String) (servers : List OVSDBServer) :
    ∀ fuel i j : Nat, i ≤ j → j < i + fuel →
      (∀ k, i ≤ k → k < j → findServer servers (serverName c k) ≠ none) →
      findServer servers (serverName c j) = none →
      searchFree c servers i fuel = some (serverName c j)
  | 0, i, j, hij, hlt, _, _ => absurd hlt (by omega)
  | fuel + 1, i, j, hij, hlt, htaken, hfree => by
    by_cases hi : findServer servers (serverName c i) = none
    · have hij' : i = j := by
        by_contra hne
        exact htaken i le_rfl (by omega) hi
      subst hij'
      simp [searchFree, hi]
    · have hij' : i < j := by
        rcases Nat.lt_or_ge i j with hlt' | hge
        · exact hlt'
        · have : i = j := by omega
          subst this
          exact absurd hfree hi
      rw [show searchFree c servers i (fuel + 1)
          = if findServer servers (serverName c i) = none
            then some (serverName c i)
            else searchFree c servers (i + 1) fuel from rfl]
      rw [if_neg hi]
      exact searchFree_eq c servers fuel (i + 1) j (by omega) (by omega)
        (fun k hk1 hk2 => htaken k (by omega) hk2) hfree

lemma nextServerName_eq (cluster : OVSDBCluster) (servers : List OVSDBServer)
    (j : Nat)
    (hfree : findServer servers (serverName cluster.name j) = none)
    (hbelow : ∀ k < j, findServer servers (serverName cluster.name k) ≠ none) :
    nextServerName cluster servers = serverName cluster.name j := by
  have hj : j ≤ servers.length := all_taken_le_length _ _ _ hbelow
  have hs := searchFree_eq cluster.name servers (servers.length + 1) 0 j
    (Nat.zero_le _) (by omega) (fun k _ hk => hbelow k hk) hfree
  unfold nextServerName
  rw [hs]
  rfl

lemma exists_free_name (c : String) (servers : List OVSDBServer) :
    ∃ j, findServer servers (serverName c j) = none := by
  by_contra h
  push_neg at h
  have := all_taken_le_length c servers (servers.length + 1)
    (fun k _ => h k)
  omega

lemma nextServerName_free (cluster : OVSDBCluster) (servers : List OVSDBServer) :
    findServer servers (nextServerName cluster servers) = none := by
  have hex := exists_free_name cluster.name servers
  have hfree := Nat.find_spec hex
  have hbelow : ∀ k < Nat.find hex,
      findServer servers (serverName cluster.name k) ≠ none :=
    fun k hk => Nat.find_min hex hk
  rw [nextServerName_eq cluster servers (Nat.find hex) hfree hbelow]
  exact hfree

/-! ### Lemmas about the status projection -/

lemma bootstrapStep_shape (st : ClusterStatus) (s : OVSDBServer) :
    ∃ f, bootstrapStep st s = { st with failed := f } := by
  unfold bootstrapStep
  cases hf : isFailed s
  · exact ⟨st.failed, rfl⟩
  · exact ⟨some (FailReason.bootstrap, bootstrapMsg [s.name]), rfl⟩

lemma bootstrapFailedFold_shape (servers : List OVSDBServer) (st : ClusterStatus) :
    ∃ f, bootstrapFailedFold servers st = { st with failed := f } := by
  induction servers generalizing st with
  | nil => exact ⟨st.failed, rfl⟩
  | cons s rest ih =>
    obtain ⟨f1, h1⟩ := bootstrapStep_shape st s
    obtain ⟨f, hf⟩ := ih (bootstrapStep st s)
    rw [h1] at hf
    dsimp only at hf
    exact ⟨f, by rw [bootstrapFailedFold, h1, hf]⟩

lemma clusterIDStep_shape (st : ClusterStatus) (s : OVSDBServer) :
    ∃ c f, clusterIDStep st s = { st with clusterID := c, failed := f } := by
  obtain ⟨stcid, sz, qu, av, ava, fl⟩ := st
  obtain ⟨sn, sav, sfl, scid, srad⟩ := s
  unfold clusterIDStep
  cases stcid with
  | none => exact ⟨scid, fl, rfl⟩
  | some cid =>
    cases scid with
    | none => exact ⟨some cid, fl, rfl⟩
    | some sid =>
      by_cases hne : sid ≠ cid
      · refine ⟨some cid, some (FailReason.inconsistent, inconsistentMsg sn sid cid), ?_⟩
        dsimp only
        rw [if_pos hne]
        rfl
      · refine ⟨some cid, fl, ?_⟩
        dsimp only
        rw [if_neg hne]

lemma clusterIDFold_shape (servers : List OVSDBServer) (st : ClusterStatus) :
    ∃ c f, clusterIDFold servers st = { st with clusterID := c, failed := f } := by
  induction servers generalizing st with
  | nil => exact ⟨st.clusterID, st.failed, rfl⟩
  | cons s rest ih =>
    obtain ⟨c1, f1, h1⟩ := clusterIDStep_shape st s
    obtain ⟨c, f, hf⟩ := ih (clusterIDStep st s)
    rw [h1] at hf
    dsimp only at hf
    exact ⟨c, f, by rw [clusterIDFold, h1, hf]⟩

lemma baseStatus_fields (cluster : OVSDBCluster) (servers : List OVSDBServer)
    (pods : List Pod) :
    (baseStatus cluster servers pods).clusterSize = countAvailable servers ∧
    (baseStatus cluster servers pods).clusterQuorum = quorumOf (countAvailable servers) ∧
    (baseStatus cluster servers pods).availableServers = countReadyPods pods ∧
    ((baseStatus cluster servers pods).available = true ↔
      (countReadyPods pods ≥ quorumOf (countAvailable servers) ∧
        countReadyPods pods > 0)) ∧
    (baseStatus cluster servers pods).clusterID = cluster.status.clusterID ∧
    (baseStatus cluster servers pods).failed = none := by
  unfold baseStatus
  by_cases h : countReadyPods pods ≥ quorumOf (countAvailable servers) ∧
      countReadyPods pods > 0
  · simp only [if_pos h]
    simp [setAvailable, unsetFailed, h]
  · simp only [if_neg h]
    simp [unsetAvailable, unsetFailed, h]

lemma statusProjection_eq (cluster : OVSDBCluster) (servers : List OVSDBServer)
    (pods : List Pod) :
    ∃ c f, statusProjection cluster servers pods
      = { baseStatus cluster servers pods with clusterID := c, failed := f } := by
  unfold statusProjection
  obtain ⟨f1, h1⟩ := bootstrapFailedFold_shape servers (baseStatus cluster servers pods)
  rw [h1]
  obtain ⟨c, f, h2⟩ := clusterIDFold_shape servers
    { baseStatus cluster servers pods with failed := f1 }
  rw [h2]
  exact ⟨c, f, rfl⟩

lemma statusProjection_fields (cluster : OVSDBCluster) (servers : List OVSDBServer)
    (pods : List Pod) :
    (statusProjection cluster servers pods).clusterSize = countAvailable servers ∧
    (statusProjection cluster servers pods).clusterQuorum
      = quorumOf (countAvailable servers) ∧
    (statusProjection cluster servers pods).availableServers = countReadyPods pods ∧
    ((statusProjection cluster servers pods).available = true ↔
      (countReadyPods pods ≥ quorumOf (countAvailable servers) ∧
        countReadyPods pods > 0)) := by
  obtain ⟨c, f, h⟩ := statusProjection_eq cluster servers pods
  obtain ⟨h1, h2, h3, h4, _, _⟩ := baseStatus_fields cluster servers pods
  rw [h]
  dsimp only
  exact ⟨h1, h2, h3, h4⟩

lemma quorumOf_eq_ceil (n : Nat) : (quorumOf n : Int) = ⌈(n : ℚ) / 2⌉ := by
  have h1n : n ≤ 2 * quorumOf n := by unfold quorumOf; omega
  have h2n : 2 * quorumOf n ≤ n + 1 := by unfold quorumOf; omega
  have h1q : (n : ℚ) ≤ 2 * (quorumOf n : ℚ) := by exact_mod_cast h1n
  have h2q : 2 * (quorumOf n : ℚ) ≤ (n : ℚ) + 1 := by exact_mod_cast h2n
  symm
  rw [Int.ceil_eq_iff]
  constructor
  · push_cast
    linarith
  · push_cast
    linarith

/-! ### Lemmas about the ClusterID loop -/

lemma clusterIDStep_some (st : ClusterStatus) (s : OVSDBServer) (cid : String)
    (hcid : st.clusterID = some cid) :
    clusterIDStep st s
      = match s.clusterID with
        | some sid =>
          if sid ≠ cid then
            setFailed st FailReason.inconsistent (inconsistentMsg s.name sid cid)
          else st
        | none => st := by
  unfold clusterIDStep
  rw [hcid]

lemma clusterIDFold_id_stable :
    ∀ (servers : List OVSDBServer) (st : ClusterStatus) (cid : String),
      st.clusterID = some cid → (clusterIDFold servers st).clusterID = some cid
  | [], _, _, hcid => hcid
  | s :: rest, st, cid, hcid => by
    rw [clusterIDFold]
    apply clusterIDFold_id_stable rest _ cid
    rw [clusterIDStep_some st s cid hcid]
    cases hsid : s.clusterID with
    | none => exact hcid
    | some sid =>
      dsimp only
      by_cases hne : sid ≠ cid
      · rw [if_pos hne]
        exact hcid
      · rw [if_neg hne]
        exact hcid

lemma clusterIDFold_noconflict :
    ∀ (servers : List OVSDBServer) (st : ClusterStatus) (cid : String),
      st.clusterID = some cid →
      (∀ s ∈ servers, ∀ sid, s.clusterID = some sid → sid = cid) →
      clusterIDFold servers st = st
  | [], _, _, _, _ => rfl
  | s :: rest, st, cid, hcid, hno => by
    rw [clusterIDFold]
    have hstep : clusterIDStep st s = st := by
      rw [clusterIDStep_some st s cid hcid]
      cases hsid : s.clusterID with
      | none => rfl
      | some sid =>
        dsimp only
        rw [if_neg (by simpa using hno s (by simp) sid hsid)]
    rw [hstep]
    exact clusterIDFold_noconflict rest st cid hcid
      (fun t ht sid hs => hno t (List.mem_cons_of_mem _ ht) sid hs)

lemma clusterIDFold_append :
    ∀ (pre rest : List OVSDBServer) (st : ClusterStatus),
      clusterIDFold (pre ++ rest) st = clusterIDFold rest (clusterIDFold pre st)
  | [], _, _ => rfl
  | s :: pre, rest, st => by
    rw [List.cons_append, clusterIDFold, clusterIDFold,
      clusterIDFold_append pre rest]

lemma clusterIDFold_conflict (pre post : List OVSDBServer) (m : OVSDBServer)
    (st : ClusterStatus) (cid mid : String)
    (hcid : st.clusterID = some cid)
    (hmid : m.clusterID = some mid) (hne : mid ≠ cid)
    (hpost : ∀ s ∈ post, ∀ sid, s.clusterID = some sid → sid = cid) :
    (clusterIDFold (pre ++ m :: post) st).failed
      = some (FailReason.inconsistent, inconsistentMsg m.name mid cid) := by
  rw [clusterIDFold_append]
  have hpre : (clusterIDFold pre st).clusterID = some cid :=
    clusterIDFold_id_stable pre st cid hcid
  rw [clusterIDFold]
  have hstep : clusterIDStep (clusterIDFold pre st) m
      = setFailed (clusterIDFold pre st) FailReason.inconsistent
          (inconsistentMsg m.name mid cid) := by
    rw [clusterIDStep_some _ m cid hpre, hmid]
    dsimp only
    rw [if_pos hne]
  rw [hstep]
  have hsetcid : (setFailed (clusterIDFold pre st) FailReason.inconsistent
      (inconsistentMsg m.name mid cid)).clusterID = some cid := hpre
  rw [clusterIDFold_noconflict post _ cid hsetcid hpost]
  rfl

lemma statusProjection_conflict (cluster : OVSDBCluster) (pods : List Pod)
    (pre post : List OVSDBServer) (m : OVSDBServer) (cid mid : String)
    (hcid : cluster.status.clusterID = some cid)
    (hmid : m.clusterID = some mid) (hne : mid ≠ cid)
    (hpost : ∀ s ∈ post, ∀ sid, s.clusterID = some sid → sid = cid) :
    (statusProjection cluster (pre ++ m :: post) pods).failed
      = some (FailReason.inconsistent, inconsistentMsg m.name mid cid) := by
  unfold statusProjection
  obtain ⟨f1, h1⟩ := bootstrapFailedFold_shape (pre ++ m :: post)
    (baseStatus cluster (pre ++ m :: post) pods)
  rw [h1]
  apply clusterIDFold_conflict pre post m _ cid mid ?_ hmid hne hpost
  obtain ⟨_, _, _, _, hbase, _⟩ := baseStatus_fields cluster (pre ++ m :: post) pods
  dsimp only
  rw [hbase, hcid]

/-! ### Lemmas about the instance loop -/

lemma countReplaced_append (l1 l2 : List Action) :
    countReplaced (l1 ++ l2) = countReplaced l1 + countReplaced l2 := by
  simp [countReplaced, List.countP_append]

lemma countReplaced_nil : countReplaced [] = 0 := rfl

lemma countReplaced_replace (n : String) (b : Bool) :
    countReplaced [Action.replacePod n b] = if b then 1 else 0 := by
  cases b <;> rfl

lemma countReplaced_create (n : String) :
    countReplaced [Action.createPod n] = 0 := rfl

lemma podStep_cases (pods : List Pod) (cs q : Nat) (opCh : String → Bool)
    (w : Int) (acts : List Action) (s : OVSDBServer) :
    podStep pods cs q opCh (w, acts) s = (w, acts) ∨
    (podStep pods cs q opCh (w, acts) s
        = ((if opCh s.name then w - 1 else w),
            acts ++ [Action.replacePod s.name (opCh s.name)])
      ∧ ¬(cs ≥ 3 ∧ w ≤ (q : Int))) ∨
    podStep pods cs q opCh (w, acts) s
      = (w - 1, acts ++ [Action.createPod s.name]) := by
  unfold podStep
  cases hav : isAvailable s with
  | false => left; simp [hav]
  | true =>
    simp only [hav, not_true_eq_false, if_false]
    cases hfp : findPod pods s.name with
    | none => right; right; rfl
    | some p =>
      by_cases hg : cs ≥ 3 ∧ w ≤ (q : Int)
      · left
        rw [if_pos hg]
      · right; left
        exact ⟨by rw [if_neg hg], hg⟩

lemma podLoop_replaced_bound (pods : List Pod) (opCh : String → Bool) :
    ∀ (servers : List OVSDBServer) (w : Int) (acts : List Action),
      w ≤ 4 → (1 ≤ countReplaced acts → w ≤ 3) → countReplaced acts ≤ 1 →
      countReplaced (podLoop pods 5 3 opCh servers (w, acts)).2 ≤ 1
  | [], _, _, _, _, h3 => h3
  | s :: rest, w, acts, h1, h2, h3 => by
    rw [podLoop]
    rcases podStep_cases pods 5 3 opCh w acts s with h | ⟨h, hg⟩ | h
    · rw [h]
      exact podLoop_replaced_bound pods opCh rest w acts h1 h2 h3
    · have hw : (3 : Int) < w := by
        by_contra hc
        exact hg ⟨by omega, by omega⟩
      have hc0 : countReplaced acts = 0 := by
        by_contra hc
        have := h2 (by omega)
        omega
      cases hb : opCh s.name with
      | true =>
        rw [hb] at h
        simp only [if_pos] at h
        rw [h]
        have hcnt : countReplaced (acts ++ [Action.replacePod s.name true]) = 1 := by
          rw [countReplaced_append, countReplaced_replace, hc0]
          simp
        refine podLoop_replaced_bound pods opCh rest (w - 1) _ (by omega) ?_ ?_
        · intro _
          omega
        · rw [hcnt]
      | false =>
        rw [hb] at h
        simp only [Bool.false_eq_true, if_false] at h
        rw [h]
        have hcnt : countReplaced (acts ++ [Action.replacePod s.name false]) = 0 := by
          rw [countReplaced_append, countReplaced_replace, hc0]
          simp
        refine podLoop_replaced_bound pods opCh rest w _ h1 ?_ ?_
        · intro hcc
          rw [hcnt] at hcc
          omega
        · rw [hcnt]
          omega
    · rw [h]
      have hcnt : countReplaced (acts ++ [Action.createPod s.name])
          = countReplaced acts := by
        rw [countReplaced_append, countReplaced_create]
        omega
      refine podLoop_replaced_bound pods opCh rest (w - 1) _ (by omega) ?_ ?_
      · intro hcc
        rw [hcnt] at hcc
        have := h2 hcc
        omega
      · rw [hcnt]
        exact h3

lemma countReplaced_deletes (pods : List Pod) :
    countReplaced (pods.map (fun p => Action.deletePod p.name)) = 0 := by
  rw [countReplaced, List.countP_eq_zero]
  intro a ha
  obtain ⟨p, _, rfl⟩ := List.mem_map.mp ha
  simp [isActualReplace]

lemma podPhase_replaced_bound (cluster : OVSDBCluster) (servers : List OVSDBServer)
    (pods : List Pod) (opCh : String → Bool) :
    countReplaced (podPhase cluster servers pods 5 3 4 opCh).2 ≤ 1 := by
  unfold podPhase
  split
  · rw [countReplaced_deletes]
    omega
  · refine podLoop_replaced_bound pods opCh servers 4 [] (by omega) ?_ ?_
    · intro h
      rw [countReplaced_nil] at h
      omega
    · rw [countReplaced_nil]
      omega

/-! ### Lemmas about the shape of the scale-up actions -/

lemma scaleUpActions_eq (cluster : OVSDBCluster) (servers : List OVSDBServer)
    (target : Nat) :
    scaleUpActions cluster servers target
      = List.replicate (target - servers.length)
          (Action.createOrUpdateServer (nextServerName cluster servers)
            (serverApplySpec cluster (nextServerName cluster servers) servers)) := by
  unfold scaleUpActions
  rw [List.map_const', List.length_range']

lemma countReplaced_scaleUp (cluster : OVSDBCluster) (servers : List OVSDBServer)
    (target : Nat) :
    countReplaced (scaleUpActions cluster servers target) = 0 := by
  rw [scaleUpActions_eq, countReplaced, List.countP_eq_zero]
  intro a ha
  rw [List.eq_of_mem_replicate ha]
  simp [isActualReplace]

lemma podStep_no_server_create (pods : List Pod) (cs q : Nat)
    (opCh : String → Bool) (w : Int) (acts : List Action) (s : OVSDBServer)
    (h : ∀ a ∈ acts, isServerCreate a = false) :
    ∀ a ∈ (podStep pods cs q opCh (w, acts) s).2, isServerCreate a = false := by
  rcases podStep_cases pods cs q opCh w acts s with hc | ⟨hc, _⟩ | hc <;>
    rw [hc] <;> intro a ha <;> dsimp only at ha
  · exact h a ha
  · rcases List.mem_append.mp ha with ha | ha
    · exact h a ha
    · rw [List.mem_singleton.mp ha]
      rfl
  · rcases List.mem_append.mp ha with ha | ha
    · exact h a ha
    · rw [List.mem_singleton.mp ha]
      rfl

lemma podLoop_no_server_create (pods : List Pod) (cs q : Nat)
    (opCh : String → Bool) :
    ∀ (servers : List OVSDBServer) (w : Int) (acts : List Action),
      (∀ a ∈ acts, isServerCreate a = false) →
      ∀ a ∈ (podLoop pods cs q opCh servers (w, acts)).2, isServerCreate a = false
  | [], _, _, h => h
  | s :: rest, w, acts, h => by
    rw [podLoop]
    have hstep := podStep_no_server_create pods cs q opCh w acts s h
    exact podLoop_no_server_create pods cs q opCh rest
      (podStep pods cs q opCh (w, acts) s).1
      (podStep pods cs q opCh (w, acts) s).2
      (fun a ha => hstep a ha)

lemma podPhase_no_server_create (cluster : OVSDBCluster)
    (servers : List OVSDBServer) (pods : List Pod) (cs q : Nat) (w : Int)
    (opCh : String → Bool) :
    ∀ a ∈ (podPhase cluster servers pods cs q w opCh).2,
      isServerCreate a = false := by
  unfold podPhase
  split
  · intro a ha
    obtain ⟨p, _, rfl⟩ := List.mem_map.mp ha
    rfl
  · exact podLoop_no_server_create pods cs q opCh servers w []
      (by intro a ha; exact absurd ha (List.not_mem_nil a))

/-! ### Lemmas about the whole cycle body -/

lemma reconcileBody_eq (cluster : OVSDBCluster) (servers : List OVSDBServer)
    (pods : List Pod) (opCh : String → Bool) :
    reconcileBody cluster servers pods opCh
      = if statusProjection cluster servers pods = cluster.status then
          (statusProjection cluster servers pods,
            scaleUpActions { cluster with status := statusProjection cluster servers pods }
              servers
              (targetServersOf
                { cluster with status := statusProjection cluster servers pods })
            ++ (podPhase { cluster with status := statusProjection cluster servers pods }
                  servers pods (countAvailable servers)
                  (quorumOf (countAvailable servers))
                  ((countReadyPods pods : Int)) opCh).2)
        else (statusProjection cluster servers pods, []) := rfl

lemma reconcileBody_replaced_bound (cluster : OVSDBCluster)
    (servers : List OVSDBServer) (pods : List Pod) (opCh : String → Bool)
    (h5 : countAvailable servers = 5) (h4 : countReadyPods pods = 4) :
    countReplaced (reconcileBody cluster servers pods opCh).2 ≤ 1 := by
  rw [reconcileBody_eq]
  split
  · dsimp only
    rw [countReplaced_append, countReplaced_scaleUp, h5, h4]
    have h := podPhase_replaced_bound
      { cluster with status := statusProjection cluster servers pods } servers pods opCh
    have hq : quorumOf 5 = 3 := rfl
    rw [hq]
    have hcast : ((4 : Nat) : Int) = (4 : Int) := by norm_num
    rw [hcast]
    omega
  · dsimp only
    rw [countReplaced_nil]
    omega

lemma reconcileBody_server_create_mem (cluster : OVSDBCluster)
    (servers : List OVSDBServer) (pods : List Pod) (opCh : String → Bool)
    (n : String) (fs : ServerSpecFields)
    (h : Action.createOrUpdateServer n fs ∈ (reconcileBody cluster servers pods opCh).2) :
    findServer servers n = none ∧ fs.initPeers = initPeersOf n servers := by
  rw [reconcileBody_eq] at h
  by_cases hst : statusProjection cluster servers pods = cluster.status
  · rw [if_pos hst] at h
    dsimp only at h
    rcases List.mem_append.mp h with h | h
    · rw [scaleUpActions_eq] at h
      have heq := List.eq_of_mem_replicate h
      injection heq with hn hfs
      constructor
      · rw [hn]
        exact nextServerName_free _ servers
      · rw [hfs, hn]
        rfl
    · have := podPhase_no_server_create _ servers pods _ _ _ opCh _ h
      simp [isServerCreate] at this
  · rw [if_neg hst] at h
    simp at h

lemma serverCreateNames_append (l1 l2 : List Action) :
    serverCreateNames (l1 ++ l2) = serverCreateNames l1 ++ serverCreateNames l2 := by
  simp [serverCreateNames, List.filterMap_append]

lemma serverCreateNames_replicate (k : Nat) (n : String) (f : ServerSpecFields) :
    serverCreateNames (List.replicate k (Action.createOrUpdateServer n f))
      = List.replicate k n := by
  induction k with
  | zero => rfl
  | succ k ih =>
    rw [List.replicate_succ, List.replicate_succ, ← ih]
    rfl

lemma serverCreateNames_podPhase (cluster : OVSDBCluster)
    (servers : List OVSDBServer) (pods : List Pod) (cs q : Nat) (w : Int)
    (opCh : String → Bool) :
    serverCreateNames (podPhase cluster servers pods cs q w opCh).2 = [] := by
  rw [serverCreateNames, List.filterMap_eq_nil_iff]
  intro a ha
  have hns := podPhase_no_server_create cluster servers pods cs q w opCh a ha
  cases a with
  | createOrUpdateServer n f => simp [isServerCreate] at hns
  | createPod n => rfl
  | replacePod n b => rfl
  | deletePod n => rfl

lemma dedup_replicate_le_one (k : Nat) (n : String) :
    (List.replicate k n).dedup.length ≤ 1 := by
  induction k with
  | zero => simp
  | succ k ih =>
    rw [List.replicate_succ]
    cases k with
    | zero => simp
    | succ m =>
      rw [List.dedup_cons_of_mem (by simp [List.mem_replicate])]
      exact ih

/-! ## The claims -/

/-- C1: in the per-member instance loop, when an Instance already exists
for an Available member, a replacement is attempted iff clusterSize < 3,
or clusterSize >= 3 and the working available count is strictly greater
than clusterQuorum; the working count starts at availableServers and is
decremented by one for each instance actually created or replaced earlier
in the same cycle, so that with clusterSize=5, quorum=3, availableServers=4
at most one member's instance is replaced in one cycle. -/
theorem c1_quorum_safe_replacement :
    (∀ (pods : List Pod) (cs q : Nat) (w : Int) (acts : List Action)
        (opCh : String → Bool) (s : OVSDBServer),
      isAvailable s = true → (findPod pods s.name).isSome = true →
      ((podStep pods cs q opCh (w, acts) s).2 ≠ acts ↔
        (cs < 3 ∨ (3 ≤ cs ∧ (q : Int) < w))))
    ∧ (∀ (cluster : OVSDBCluster) (servers : List OVSDBServer) (pods : List Pod)
        (opCh : String → Bool),
      countAvailable servers = 5 → countReadyPods pods = 4 →
      countReplaced (reconcileBody cluster servers pods opCh).2 ≤ 1) := by
  constructor
  · intro pods cs q w acts opCh s hav hfp
    obtain ⟨p, hp⟩ := Option.isSome_iff_exists.mp hfp
    unfold podStep
    simp only [hav, not_true_eq_false, if_false]
    rw [hp]
    dsimp only
    by_cases hg : cs ≥ 3 ∧ w ≤ (q : Int)
    · rw [if_pos hg]
      dsimp only
      constructor
      · intro hne
        exact absurd rfl hne
      · rintro (hlt | ⟨hge, hqw⟩)
        · exact absurd hg.1 (by omega)
        · exact absurd hg.2 (by omega)
    · rw [if_neg hg]
      dsimp only
      constructor
      · intro _
        rcases Nat.lt_or_ge cs 3 with hc | hc
        · exact Or.inl hc
        · refine Or.inr ⟨hc, ?_⟩
          by_contra hq
          exact hg ⟨hc, by omega⟩
      · intro _ heq
        have hlen := congrArg List.length heq
        simp at hlen
  · intro cluster servers pods opCh h5 h4
    exact reconcileBody_replaced_bound cluster servers pods opCh h5 h4

/-- C1 witness: with five available members, four ready instances, working
count 4 and quorum 3, a replacement is attempted for the first member, and
over the whole cycle at most one instance is actually replaced. -/
theorem c1_quorum_safe_replacement_witness :
    ((podStep podsFour 5 3 (fun _ => true) (4, []) (mkServer "c-0" none none)).2 ≠ [] ↔
      (5 < 3 ∨ (3 ≤ 5 ∧ ((3 : Nat) : Int) < 4)))
    ∧ countReplaced
        (reconcileBody (mkCluster "c" 3 freshStatus) serversFive podsFour
          (fun _ => true)).2 ≤ 1 :=
  ⟨c1_quorum_safe_replacement.1 podsFour 5 3 4 [] (fun _ => true)
      (mkServer "c-0" none none) (by decide) (by decide),
    c1_quorum_safe_replacement.2 (mkCluster "c" 3 freshStatus) serversFive podsFour
      (fun _ => true) (by decide) (by decide)⟩

/-- C2: every cycle computes (and, when changed, writes) a Cluster status
with clusterSize the count of members whose Available condition holds,
clusterQuorum the ceiling of clusterSize over two (so sizes 0..5 give
quorums 0,1,1,2,2,3), availableServers the count of ready instances, and
the Available condition set iff availableServers >= clusterQuorum and
availableServers > 0. -/
theorem c2_status_invariants :
    (∀ (cluster : OVSDBCluster) (servers : List OVSDBServer) (pods : List Pod)
        (opCh : String → Bool),
      (reconcile cluster (Except.ok servers) (Except.ok pods) opCh).status
        = statusProjection cluster servers pods)
    ∧ (∀ (cluster : OVSDBCluster) (servers : List OVSDBServer) (pods : List Pod),
      (statusProjection cluster servers pods).clusterSize = countAvailable servers ∧
      (statusProjection cluster servers pods).clusterQuorum
        = quorumOf ((statusProjection cluster servers pods).clusterSize) ∧
      (statusProjection cluster servers pods).availableServers = countReadyPods pods ∧
      ((statusProjection cluster servers pods).available = true ↔
        ((statusProjection cluster servers pods).availableServers
            ≥ (statusProjection cluster servers pods).clusterQuorum ∧
          (statusProjection cluster servers pods).availableServers > 0)))
    ∧ (∀ n : Nat, (quorumOf n : Int) = ⌈(n : ℚ) / 2⌉)
    ∧ (quorumOf 0 = 0 ∧ quorumOf 1 = 1 ∧ quorumOf 2 = 1 ∧ quorumOf 3 = 2 ∧
        quorumOf 4 = 2 ∧ quorumOf 5 = 3) := by
  refine ⟨?_, ?_, quorumOf_eq_ceil, by decide⟩
  · intro cluster servers pods opCh
    show (reconcileBody cluster servers pods opCh).1 = statusProjection cluster servers pods
    rw [reconcileBody_eq]
    split <;> rfl
  · intro cluster servers pods
    obtain ⟨h1, h2, h3, h4⟩ := statusProjection_fields cluster servers pods
    refine ⟨h1, ?_, h3, ?_⟩
    · rw [h1, h2]
    · rw [h3, h2]
      exact h4

/-- C3: when the status ClusterID is null the target member count is
forced to exactly 1 regardless of spec.replicas (otherwise it is
max(replicas, 1)); in particular, from replicas=5, ClusterID null and no
existing members, exactly one Member is created in the cycle. -/
theorem c3_bootstrap_singularity :
    (∀ cluster : OVSDBCluster,
      cluster.status.clusterID = none → targetServersOf cluster = 1)
    ∧ (∀ cluster : OVSDBCluster,
      cluster.status.clusterID ≠ none →
      targetServersOf cluster = max cluster.spec.replicas 1)
    ∧ (∀ (n dbt sz : String) (scl : Option String) (opCh : String → Bool),
      (serverCreateNames
        (reconcileBody
          { name := n,
            spec := { replicas := 5, dbType := dbt, serverStorageSize := sz,
                      serverStorageClass := scl },
            status := freshStatus } [] [] opCh).2).length = 1) := by
  refine ⟨?_, ?_, fun n dbt sz scl opCh => rfl⟩
  · intro cluster h
    simp [targetServersOf, h]
  · intro cluster h
    simp only [targetServersOf, if_neg h]
    rcases Nat.eq_zero_or_pos cluster.spec.replicas with h0 | h0
    · rw [h0]
      rfl
    · rw [if_neg (by omega)]
      omega

/-- C3 witness: a never-bootstrapped cluster gets target 1; a bootstrapped
cluster with two replicas gets target max 2 1. -/
theorem c3_bootstrap_singularity_witness :
    targetServersOf (mkCluster "c" 5 freshStatus) = 1 ∧
    targetServersOf clusterC8 = max 2 1 :=
  ⟨c3_bootstrap_singularity.1 (mkCluster "c" 5 freshStatus) (by decide),
    c3_bootstrap_singularity.2.1 clusterC8 (by decide)⟩

/-- C4: if a member reports a non-null ClusterID different from the
Cluster's non-null ClusterID, the cycle sets the Failed condition with a
message naming that member and both IDs; the ClusterID loop runs after the
bootstrap-failure loop, so this holds whatever the members' failed flags
are: an inconsistency overwrites any bootstrap-failure condition set in
the same cycle.  `m` is the last conflicting member in the observed
order. -/
theorem c4_clusterid_conflict_overwrites (cluster : OVSDBCluster)
    (pods : List Pod) (pre post : List OVSDBServer) (m : OVSDBServer)
    (cid mid : String)
    (hcid : cluster.status.clusterID = some cid)
    (hmid : m.clusterID = some mid) (hne : mid ≠ cid)
    (hpost : ∀ s ∈ post, ∀ sid, s.clusterID = some sid → sid = cid) :
    (statusProjection cluster (pre ++ m :: post) pods).failed
      = some (FailReason.inconsistent, inconsistentMsg m.name mid cid) :=
  statusProjection_conflict cluster pods pre post m cid mid hcid hmid hne hpost

/-- C4 witness: a member that failed bootstrap comes first and sets the
bootstrap Failed condition, then the conflicting member `m` (ClusterID "B"
against the cluster's "A") overwrites it with the inconsistency message. -/
theorem c4_clusterid_conflict_overwrites_witness :
    (statusProjection (mkCluster "c" 2 statusA) ([failedA] ++ conflictM :: []) []).failed
      = some (FailReason.inconsistent, inconsistentMsg "m" "B" "A") :=
  c4_clusterid_conflict_overwrites (mkCluster "c" 2 statusA) [] [failedA] []
    conflictM "A" "B" (by decide) (by decide) (by decide)
    (fun s hs => absurd hs (List.not_mem_nil s))

/-- C5: the Failed condition is unset at the start of every cycle; if any
member reports failed, the condition is set — but, because the local
accumulator is declared inside the per-member loop in the source, the
message names only the LAST failed member, not all of them.  With members
"a" and "b" both failed, the recorded message names only "b", and differs
from the message naming both, contradicting the claim that the message
lists all failed member names. -/
theorem c5_failed_message_only_last :
    isFailed failedA = true ∧ isFailed failedB = true ∧
    (statusProjection (mkCluster "c" 2 freshStatus) [failedA, failedB] []).failed
      = some (FailReason.bootstrap, bootstrapMsg ["b"]) ∧
    bootstrapMsg ["b"] ≠ bootstrapMsg ["a", "b"] :=
  ⟨rfl, rfl, by decide, by decide⟩

/-- C6: if the status projection changed any persisted status field
relative to the snapshot taken at cycle start, the cycle returns right
after the projection: no member and no instance action is emitted in that
pass. -/
theorem c6_early_exit (cluster : OVSDBCluster) (servers : List OVSDBServer)
    (pods : List Pod) (opCh : String → Bool)
    (h : statusProjection cluster servers pods ≠ cluster.status) :
    (reconcileBody cluster servers pods opCh).2 = [] := by
  rw [reconcileBody_eq, if_neg h]

/-- C6 witness: a member became available but the stored status still says
clusterSize 0, so the projection differs and the cycle emits no actions. -/
theorem c6_early_exit_witness :
    (reconcileBody (mkCluster "c" 1 freshStatus) [mkServer "c-0" none none] []
      (fun _ => true)).2 = [] :=
  c6_early_exit (mkCluster "c" 1 freshStatus) [mkServer "c-0" none none] []
    (fun _ => true) (by decide)

/-- C7: the name synthesized for a new member is the first name in the
sequence cluster-0, cluster-1, ... that is not present in the observed
member list. -/
theorem c7_next_server_name_first_gap (cluster : OVSDBCluster)
    (servers : List OVSDBServer) (j : Nat)
    (hfree : findServer servers (serverName cluster.name j) = none)
    (hbelow : ∀ k < j, findServer servers (serverName cluster.name k) ≠ none) :
    nextServerName cluster servers = serverName cluster.name j :=
  nextServerName_eq cluster servers j hfree hbelow

/-- C7 witness: with existing members c-0 and c-2, the next name is c-1,
the first gap, not c-3. -/
theorem c7_next_server_name_first_gap_witness :
    nextServerName clusterC7 serversC7 = "c-1" :=
  (c7_next_server_name_first_gap clusterC7 serversC7 1 (by decide) (by decide)).trans
    (by decide)

/-- C8: a newly applied Member's initPeers equals the raft addresses of
exactly those observed members with a different name and a reported
address; and every member upsert emitted by a cycle is for a name not in
the observed member list, with initPeers computed from that list — members
created in earlier cycles are never retroactively updated. -/
theorem c8_init_peers_capture :
    (∀ (sname : String) (servers : List OVSDBServer) (a : String),
      a ∈ initPeersOf sname servers ↔
        ∃ peer ∈ servers, peer.name ≠ sname ∧ peer.raftAddress = some a)
    ∧ (∀ (cluster : OVSDBCluster) (servers : List OVSDBServer) (pods : List Pod)
        (opCh : String → Bool) (n : String) (fs : ServerSpecFields),
      Action.createOrUpdateServer n fs ∈ (reconcileBody cluster servers pods opCh).2 →
      findServer servers n = none ∧ fs.initPeers = initPeersOf n servers) := by
  constructor
  · intro sname servers a
    simp only [initPeersOf, List.mem_filterMap]
    constructor
    · rintro ⟨peer, hmem, hpeer⟩
      by_cases h : peer.name = sname
      · rw [if_pos h] at hpeer
        exact absurd hpeer (by simp)
      · rw [if_neg h] at hpeer
        exact ⟨peer, hmem, h, hpeer⟩
    · rintro ⟨peer, hmem, hne, haddr⟩
      refine ⟨peer, hmem, ?_⟩
      rw [if_neg hne]
      exact haddr
  · intro cluster servers pods opCh n fs h
    exact reconcileBody_server_create_mem cluster servers pods opCh n fs h

/-- C8 witness: in a cluster bootstrapped with ClusterID "A" and one
member c-0 that reports the address "tcp:s0", the cycle upserts a new
member c-1 whose initPeers captures exactly that address, and c-1 is not
in the observed list. -/
theorem c8_init_peers_capture_witness :
    ("tcp:s0" ∈ initPeersOf "c-1" serversC8 ↔
      ∃ peer ∈ serversC8, peer.name ≠ "c-1" ∧ peer.raftAddress = some "tcp:s0")
    ∧ (findServer serversC8 "c-1" = none ∧
        ({ dbType := "nb", clusterID := some "A", clusterName := "c",
            initPeers := ["tcp:s0"], storageSize := "1G", storageClass := none }
          : ServerSpecFields).initPeers = initPeersOf "c-1" serversC8) :=
  ⟨c8_init_peers_capture.1 "c-1" serversC8 "tcp:s0",
    c8_init_peers_capture.2 clusterC8 serversC8 [] (fun _ => true) "c-1"
      { dbType := "nb", clusterID := some "A", clusterName := "c",
        initPeers := ["tcp:s0"], storageSize := "1G", storageClass := none }
      (by decide)⟩

/-- C9: if listing members or listing instances fails, the cycle aborts
with that error surfaced to the caller and no action is taken. -/
theorem c9_list_error_aborts :
    (∀ (cluster : OVSDBCluster) (e : String)
        (podsResult : Except String (List Pod)) (opCh : String → Bool),
      (reconcile cluster (Except.error e) podsResult opCh).err = some e ∧
      (reconcile cluster (Except.error e) podsResult opCh).actions = [])
    ∧ (∀ (cluster : OVSDBCluster) (servers : List OVSDBServer) (e : String)
        (opCh : String → Bool),
      (reconcile cluster (Except.ok servers) (Except.error e) opCh).err = some e ∧
      (reconcile cluster (Except.ok servers) (Except.error e) opCh).actions = []) :=
  ⟨fun _ _ _ _ => ⟨rfl, rfl⟩, fun _ _ _ _ => ⟨rfl, rfl⟩⟩

/-- C10: every iteration of the scale-up loop synthesizes its name against
the member list observed at cycle start (never extended by the loop), so
all iterations produce the same name and at most one distinct new member
name is created per cycle. -/
theorem c10_single_new_name_per_cycle :
    (∀ (cluster : OVSDBCluster) (servers : List OVSDBServer) (target : Nat),
      scaleUpActions cluster servers target
        = List.replicate (target - servers.length)
            (Action.createOrUpdateServer (nextServerName cluster servers)
              (serverApplySpec cluster (nextServerName cluster servers) servers)))
    ∧ (∀ (cluster : OVSDBCluster) (servers : List OVSDBServer) (pods : List Pod)
        (opCh : String → Bool),
      (serverCreateNames (reconcileBody cluster servers pods opCh).2).dedup.length ≤ 1) := by
  refine ⟨scaleUpActions_eq, ?_⟩
  intro cluster servers pods opCh
  rw [reconcileBody_eq]
  split
  · dsimp only
    rw [serverCreateNames_append, scaleUpActions_eq, serverCreateNames_replicate,
      serverCreateNames_podPhase, List.append_nil]
    exact dedup_replicate_le_one _ _
  · dsimp only
    simp [serverCreateNames]

end OvnOperator
